import Mathlib

/-!
Shallow embedding of the dnspyre DNS-benchmark scoring, batch-driver, exit-code
and geolocation logic, together with theorems settling the specification
claims about them.

Go `float64` arithmetic is modelled over the real numbers `ℝ`; Go `int64`
values are modelled as `ℤ`.  Go integer division truncates toward zero, which
coincides with Lean's `Int` division.
-/

namespace Dnspyre

/-! ## Scoring (package `scoring`) -/

/-- `ScoreResult` from the scoring package: the scoring breakdown for a DNS
server.  Fields are Go `float64`, modelled as `ℝ`. -/
structure ScoreResult where
  Total : ℝ
  SuccessRate : ℝ
  ErrorRate : ℝ
  Latency : ℝ
  QPS : ℝ

/-- Scoring configuration constant `SuccessRateScoreWeight = 35.0`. -/
def SuccessRateScoreWeight : ℝ := 35.0

/-- Scoring configuration constant `ErrorRateScoreWeight = 10.0`. -/
def ErrorRateScoreWeight : ℝ := 10.0

/-- Scoring configuration constant `LatencyScoreWeight = 50.0`. -/
def LatencyScoreWeight : ℝ := 50.0

/-- Scoring configuration constant `QPSScoreWeight = 5.0`. -/
def QPSScoreWeight : ℝ := 5.0

/-- Scoring configuration constant `LatencyRangeMax = 1000.0`. -/
def LatencyRangeMax : ℝ := 1000.0

/-- Scoring configuration constant `LatencyRangeMin = 0.1`. -/
def LatencyRangeMin : ℝ := 0.1

/-- Scoring configuration constant `MaxQPS = 100.0`. -/
def MaxQPS : ℝ := 100.0

/-- `LatencyMetrics` from the scoring package: latency statistics in
milliseconds, Go `int64` fields modelled as `ℤ`. -/
structure LatencyMetrics where
  MeanMs : ℤ
  StdMs : ℤ
  P50Ms : ℤ
  P95Ms : ℤ
deriving DecidableEq

/-- `BenchmarkMetrics` from the scoring package: the metrics needed for
scoring. -/
structure BenchmarkMetrics where
  TotalRequests : ℤ
  TotalSuccessResponses : ℤ
  TotalErrorResponses : ℤ
  TotalIOErrors : ℤ
  QueriesPerSecond : ℝ
  LatencyStats : LatencyMetrics

/-- `CalculateScore` from the scoring package, translated statement by
statement.  Note `meanMs := float64((MeanMs + P50Ms) / 2)` performs the Go
`int64` division before the conversion to `float64`; Go division truncates
toward zero, which is `Int.tdiv`. -/
noncomputable def CalculateScore (metrics : BenchmarkMetrics) : ScoreResult :=
  if metrics.TotalSuccessResponses = 0 then
    ⟨0, 0, 0, 0, 0⟩
  else
    let successRate : ℝ :=
      (metrics.TotalSuccessResponses : ℝ) / (metrics.TotalRequests : ℝ)
    let successRateScore := successRate * 100
    let errorRate : ℝ :=
      ((metrics.TotalErrorResponses + metrics.TotalIOErrors : ℤ) : ℝ) /
        (metrics.TotalRequests : ℝ)
    let errorRateScore₀ := 100 * (1 - errorRate)
    let errorRateScore := max 0 (min 100 errorRateScore₀)
    let meanMs : ℝ := ((Int.tdiv (metrics.LatencyStats.MeanMs + metrics.LatencyStats.P50Ms) 2 : ℤ) : ℝ)
    let latencyScore₀ : ℝ :=
      if meanMs < LatencyRangeMin then 95.0
      else if meanMs > LatencyRangeMax then 0
      else
        let ls₀ := 100 * (1 - (meanMs - LatencyRangeMin) / (LatencyRangeMax - LatencyRangeMin))
        let ls := max 0 (min 100 ls₀)
        if meanMs > 0 then
          let stdPenalty := (metrics.LatencyStats.StdMs : ℝ) / meanMs * 5
          max 0 (ls - stdPenalty)
        else ls
    let latencyScore :=
      if metrics.LatencyStats.P95Ms > (1000 : ℤ) then latencyScore₀ * 0.7
      else latencyScore₀
    let qpsScore₀ :=
      100 * Real.log (1 + metrics.QueriesPerSecond) / Real.log (1 + MaxQPS)
    let qpsScore := min 100 qpsScore₀
    let totalScore :=
      (successRateScore * SuccessRateScoreWeight +
        errorRateScore * ErrorRateScoreWeight +
        latencyScore * LatencyScoreWeight +
        qpsScore * QPSScoreWeight) / 100
    ⟨totalScore, successRateScore, errorRateScore, latencyScore, qpsScore⟩

/-- The latency value asserted by claim C1, following the claim's words: `m`
is *the exact arithmetic mean* `(meanLatMs + p50LatMs) / 2` of the two
millisecond values (no integer truncation); the rest follows the claim. -/
noncomputable def claimedLatencyExactMean (metrics : BenchmarkMetrics) : ℝ :=
  let m : ℝ := ((metrics.LatencyStats.MeanMs : ℝ) + (metrics.LatencyStats.P50Ms : ℝ)) / 2
  let v : ℝ :=
    if m < 0.1 then 95
    else if m > 1000 then 0
    else max 0 (100 * (1 - (m - 0.1) / (1000 - 0.1)) - (metrics.LatencyStats.StdMs : ℝ) / m * 5)
  if metrics.LatencyStats.P95Ms > (1000 : ℤ) then v * 0.7 else v

/-- The latency value of the amended claim C1: as `claimedLatencyExactMean`,
except `m` is the truncating integer division `(meanLatMs + p50LatMs) / 2`
performed on the `int64` millisecond values, as the code does. -/
noncomputable def claimedLatencyIntMean (metrics : BenchmarkMetrics) : ℝ :=
  let m : ℝ := ((Int.tdiv (metrics.LatencyStats.MeanMs + metrics.LatencyStats.P50Ms) 2 : ℤ) : ℝ)
  let v : ℝ :=
    if m < 0.1 then 95
    else if m > 1000 then 0
    else max 0 (100 * (1 - (m - 0.1) / (1000 - 0.1)) - (metrics.LatencyStats.StdMs : ℝ) / m * 5)
  if metrics.LatencyStats.P95Ms > (1000 : ℤ) then v * 0.7 else v

/-- The `successRateScore` value computed by `CalculateScore` when
`TotalSuccessResponses ≠ 0`. -/
noncomputable def successRateScoreOf (metrics : BenchmarkMetrics) : ℝ :=
  (metrics.TotalSuccessResponses : ℝ) / (metrics.TotalRequests : ℝ) * 100

/-- The clamped `errorRateScore` value computed by `CalculateScore`. -/
noncomputable def errorRateScoreOf (metrics : BenchmarkMetrics) : ℝ :=
  max 0 (min 100 (100 * (1 -
    ((metrics.TotalErrorResponses + metrics.TotalIOErrors : ℤ) : ℝ) /
      (metrics.TotalRequests : ℝ))))

/-- The `meanMs` value computed by `CalculateScore`: the truncating `int64`
division of `MeanMs + P50Ms` by 2, converted to `float64`. -/
noncomputable def meanMsOf (metrics : BenchmarkMetrics) : ℝ :=
  ((Int.tdiv (metrics.LatencyStats.MeanMs + metrics.LatencyStats.P50Ms) 2 : ℤ) : ℝ)

/-- The `latencyScore` value computed by `CalculateScore` before the P95
penalty. -/
noncomputable def latencyScoreBaseOf (metrics : BenchmarkMetrics) : ℝ :=
  if meanMsOf metrics < LatencyRangeMin then 95.0
  else if meanMsOf metrics > LatencyRangeMax then 0
  else
    let ls := max 0 (min 100 (100 * (1 -
      (meanMsOf metrics - LatencyRangeMin) / (LatencyRangeMax - LatencyRangeMin))))
    if meanMsOf metrics > 0 then
      max 0 (ls - (metrics.LatencyStats.StdMs : ℝ) / meanMsOf metrics * 5)
    else ls

/-- The `latencyScore` value computed by `CalculateScore`, after the P95
penalty. -/
noncomputable def latencyScoreOf (metrics : BenchmarkMetrics) : ℝ :=
  if metrics.LatencyStats.P95Ms > (1000 : ℤ) then latencyScoreBaseOf metrics * 0.7
  else latencyScoreBaseOf metrics

/-- The capped `qpsScore` value computed by `CalculateScore`. -/
noncomputable def qpsScoreOf (metrics : BenchmarkMetrics) : ℝ :=
  min 100 (100 * Real.log (1 + metrics.QueriesPerSecond) / Real.log (1 + MaxQPS))

/-- The weighted `totalScore` value computed by `CalculateScore`. -/
noncomputable def totalScoreOf (metrics : BenchmarkMetrics) : ℝ :=
  (successRateScoreOf metrics * SuccessRateScoreWeight +
    errorRateScoreOf metrics * ErrorRateScoreWeight +
    latencyScoreOf metrics * LatencyScoreWeight +
    qpsScoreOf metrics * QPSScoreWeight) / 100

/-- `ServerRank` from the scoring package: a server and its score for
ranking. -/
structure ServerRank where
  Server : String
  Score : ScoreResult

/-- State-passing translation of the inner loop of `RankServers`
(`for j := i+1; ...`): `x` is the current `rankings[i]`, the list holds
`rankings[i+1..]`.  When `rankings[i].Score.Total < rankings[j].Score.Total`
the two entries are swapped: position `j` receives the old `rankings[i]` and
the current element becomes the old `rankings[j]`.  Returns the final
`rankings[i]` together with the final `rankings[i+1..]`. -/
noncomputable def rankInnerLoop : ServerRank → List ServerRank → ServerRank × List ServerRank
  | x, [] => (x, [])
  | x, y :: ys =>
    if x.Score.Total < y.Score.Total then
      let r := rankInnerLoop y ys
      (r.1, x :: r.2)
    else
      let r := rankInnerLoop x ys
      (r.1, y :: r.2)

/-- State-passing translation of the outer loop of `RankServers`
(`for i := 0; i < len(rankings); i++`): the fuel counts the remaining outer
iterations (`len(rankings) - i`); positions below `i` are never touched
again and become the accumulated result. -/
noncomputable def rankOuterLoop : ℕ → List ServerRank → List ServerRank
  | 0, rankings => rankings
  | _ + 1, [] => []
  | fuel + 1, x :: xs =>
    let r := rankInnerLoop x xs
    r.1 :: rankOuterLoop fuel r.2

/-- `RankServers` from the scoring package: builds the rankings slice from the
map entries and sorts it by total score in descending order with the nested
swap loops.  The Go `map[string]ScoreResult` is modelled as the list of its
entries in some iteration order. -/
noncomputable def RankServers (servers : List (String × ScoreResult)) : List ServerRank :=
  let rankings := servers.map fun p => ServerRank.mk p.1 p.2
  rankOuterLoop rankings.length rankings

/-! ## Benchmark configuration (`dnsbench.Benchmark` as configured by `cmd`)

The `dnsbench.Benchmark` struct itself lives outside this repository's `cmd`
package; its configuration fields are exactly the ones bound to flags in
`root.go`.  Go `time.Duration` fields are nanosecond counts (`ℤ`), `float64`
carried opaquely is modelled as `ℚ`, and the `io.Writer` handle as an
identifier. -/

/-- The benchmark configuration value: one field per flag binding in
`root.go`, plus the `Writer` handle set in `cmd`. -/
structure Benchmark where
  Server : String
  Types : List String
  Count : ℤ
  Concurrency : ℕ
  Rate : ℤ
  RateLimitWorker : ℤ
  QperConn : ℤ
  Recurse : Bool
  Probability : ℚ
  EdnsOpt : String
  DNSSEC : Bool
  Edns0 : ℕ
  TCP : Bool
  DOT : Bool
  WriteTimeout : ℤ
  ReadTimeout : ℤ
  ConnectTimeout : ℤ
  RequestTimeout : ℤ
  Rcodes : Bool
  HistMin : ℤ
  HistMax : ℤ
  HistPre : ℤ
  HistDisplay : Bool
  Csv : String
  JSON : Bool
  BatchJSON : String
  HTML : String
  Silent : Bool
  Color : Bool
  PlotDir : String
  PlotFormat : String
  DohMethod : String
  DohProtocol : String
  Insecure : Bool
  Duration : ℤ
  ProgressBar : Bool
  RequestLogEnabled : Bool
  RequestLogPath : String
  SeparateWorkerConnections : Bool
  RequestDelay : String
  PrometheusMetricsAddr : String
  Queries : List String
  Writer : ℕ
deriving DecidableEq

/-- The per-server configuration copy made by `runBatchBenchmark`
(`root.go` lines 747-751): `serverBenchmark := benchmark` followed by the
three field assignments `Server = server`, `JSON = true`, `Silent = true`. -/
def serverBenchmark (benchmark : Benchmark) (server : String) : Benchmark :=
  { benchmark with Server := server, JSON := true, Silent := true }

/-- A concrete benchmark configuration with the flag defaults of `root.go`
(in particular `JSON = false` and `Silent = false`). -/
def sampleBenchmark : Benchmark where
  Server := "127.0.0.1"
  Types := ["A"]
  Count := 10
  Concurrency := 1
  Rate := 0
  RateLimitWorker := 0
  QperConn := 0
  Recurse := true
  Probability := 1
  EdnsOpt := ""
  DNSSEC := false
  Edns0 := 0
  TCP := false
  DOT := false
  WriteTimeout := 5000000000
  ReadTimeout := 5000000000
  ConnectTimeout := 5000000000
  RequestTimeout := 5000000000
  Rcodes := true
  HistMin := 400000
  HistMax := 0
  HistPre := 1
  HistDisplay := true
  Csv := ""
  JSON := false
  BatchJSON := ""
  HTML := ""
  Silent := false
  Color := true
  PlotDir := ""
  PlotFormat := "svg"
  DohMethod := "post"
  DohProtocol := "1.1"
  Insecure := false
  Duration := 0
  ProgressBar := true
  RequestLogEnabled := false
  RequestLogPath := "requests.log"
  SeparateWorkerConnections := false
  RequestDelay := "0s"
  PrometheusMetricsAddr := ""
  Queries := ["example.com"]
  Writer := 0

/-! ## Batch JSON output (`runBatchBenchmark` in `root.go`) -/

/-- Go `strings.Contains`. -/
def goContains (s sub : String) : Bool := (s.splitOn sub).length > 1

/-- Go `strings.TrimPrefix`. -/
def goTrimPre (s pre : String) : String :=
  if pre.isPrefixOf s then s.drop pre.length else s

/-- Go `strings.TrimSuffix`. -/
def goTrimSuf (s suf : String) : String :=
  if s.endsWith suf then s.dropRight suf.length else s

/-- The first component of Go `strings.SplitN(s, sep, 2)`: the part of `s`
before the first occurrence of `sep` (or all of `s`). -/
def goSplitFirst (s sep : String) : String := (s.splitOn sep).headD s

/-- Go `strings.SplitN(s, sep, 2)`: at most two parts, the second being the
remainder after the first occurrence of `sep`. -/
def goSplitN2 (s sep : String) : List String :=
  match s.splitOn sep with
  | [] => [s]
  | [p] => [p]
  | p :: rest => [p, String.intercalate sep rest]

/-- Go `strings.Split(s, ",")` for the single-character separator used by
the batch driver: split the character list at every comma. -/
def goSplitComma (s : String) : List String :=
  (s.data.splitOn ',').map fun cs => { data := cs }

/-- Go `strings.TrimSpace`: drop whitespace from both ends. -/
def goTrimSpace (s : String) : String :=
  { data := ((s.data.dropWhile Char.isWhitespace).reverse.dropWhile Char.isWhitespace).reverse }

/-- Lexicographic comparison of character lists by code point.  For valid
UTF-8 this coincides with the byte-wise comparison Go's `sort.Strings` /
`encoding/json` key ordering uses. -/
def goCharsLe : List Char → List Char → Bool
  | [], _ => true
  | _ :: _, [] => false
  | a :: as, b :: bs =>
    if a < b then true
    else if b < a then false
    else goCharsLe as bs

/-- Go's byte-wise string order, on the decoded character lists. -/
def goStringLe (s t : String) : Bool := goCharsLe s.data t.data

/-- The trimmed, non-empty server names processed by the loop of
`runBatchBenchmark`: `strings.Split(serverList, ",")`, each entry
`strings.TrimSpace`d, empty entries skipped. -/
def batchServerNames (serverList : String) : List String :=
  ((goSplitComma serverList).map goTrimSpace).filter (fun s => s ≠ "")

/-- The JSON object emitted on stdout by `runBatchBenchmark`, as the ordered
list of its key/value pairs.  The per-server sub-run together with the JSON
round-trip of its report is abstracted by `runResult` (the claims quantify
over runs in which every sub-run succeeds).  Go accumulates the results in a
`map[string]interface{}` keyed by the trimmed server string — duplicate keys
collapse — and emits it with `encoding/json.MarshalIndent`, which writes the
keys of a Go map in sorted (byte-wise lexicographic) order; key sorting is
modelled with `List.insertionSort` on the byte-wise order `goStringLe`. -/
def runBatchBenchmark (α : Type) (serverList : String) (runResult : String → α) :
    List (String × α) :=
  let keys := (batchServerNames serverList).dedup
  (keys.insertionSort (fun a b => goStringLe a b = true)).map fun s => (s, runResult s)

/-! ## Fail conditions (`Execute` in `root.go`) -/

/-- The aggregate outcome counters of a finished run
(`reporter.BenchmarkResultStats.Counters`), Go `int64`. -/
structure Counters where
  Total : ℤ
  Success : ℤ
  Negative : ℤ
  Error : ℤ
  Truncated : ℤ
  IDmismatch : ℤ
  IOError : ℤ
deriving DecidableEq

/-- The tail of `Execute` (`root.go` lines 290-312): after a completed run
whose report printed successfully, walk the configured `--fail` conditions in
order and exit with status 1 at the first one whose counter is positive;
falling through the loop ends `Execute` normally, and the process exits with
status 0. -/
def failConditionsExitCode (failConditions : List String) (stats : Counters) : ℕ :=
  match failConditions with
  | [] => 0
  | f :: rest =>
    if f = "ioerror" then
      if stats.IOError > 0 then 1 else failConditionsExitCode rest stats
    else if f = "negative" then
      if stats.Negative > 0 then 1 else failConditionsExitCode rest stats
    else if f = "error" then
      if stats.Error > 0 then 1 else failConditionsExitCode rest stats
    else if f = "idmismatch" then
      if stats.IDmismatch > 0 then 1 else failConditionsExitCode rest stats
    else failConditionsExitCode rest stats

/-! ## Geolocation (`pkg/geo` and `getServerGeocode` in `root.go`)

The external effects — GeoIP database loading (`geoip2.Open`), host
resolution (`net.LookupIP`) and the database country lookup
(`db.Country`) — are modelled as an environment the functions are
parameterized by, so the theorems quantify over every outcome of them. -/

/-- A resolved IP address (`net.IP`), abstracted to the predicates the code
consults: `IsPrivate`, `IsUnspecified`, `To4() != nil`, and its `String()`
rendering. -/
structure IPAddr where
  isPrivate : Bool
  isUnspecified : Bool
  isV4 : Bool
  str : String

/-- The outcomes of the external effects: `dbLoad` is the result of the
`geoip2.Open` attempts of `NewGeoService` (`none` = all paths failed; the
loaded database is its country-lookup function, `none` meaning
`db.Country` returned an error, `some iso` the `record.Country.IsoCode`);
`lookupIP` is `net.LookupIP` (`none` = error). -/
structure GeoEnv where
  dbLoad : Option (IPAddr → Option String)
  lookupIP : String → Option (List IPAddr)

/-- `GeoService` from `pkg/geo`: holds the (possibly nil) GeoIP database. -/
structure GeoService where
  db : Option (IPAddr → Option String)

/-- `NewGeoService` from `pkg/geo`: returns an error when no database path
opens, otherwise a service whose `db` is the opened database. -/
def NewGeoService (env : GeoEnv) : Option GeoService :=
  match env.dbLoad with
  | none => none
  | some d => some ⟨some d⟩

/-- `checkIPGeo` from `pkg/geo`: queries the GeoIP database for country
information.  Result is `(geoCode, errFlag)` where `errFlag` models a
non-nil returned `error`. -/
def checkIPGeo (g : GeoService) (ip : IPAddr) : String × Bool :=
  match g.db with
  | none => ("UNKNOWN", true)
  | some country =>
    match country ip with
    | none => ("CDN", true)
    | some iso => if iso = "" then ("CDN", false) else (iso, false)

/-- `CheckGeo` from `pkg/geo`: analyzes a DNS server address and returns its
IP rendering, country code and error flag, translated branch by branch.
`strconv.Atoi` is modelled by `String.toInt?`. -/
def CheckGeo (g : GeoService) (env : GeoEnv) (serverArg : String) (preferIPv4 : Bool) :
    String × String × Bool :=
  match g.db with
  | none => ("0.0.0.0", "UNKNOWN", true)
  | some _ =>
    let server := goTrimSuf serverArg.trim "/"
    if server = "" then ("0.0.0.0", "PRIVATE", true)
    else
      let ipOpt : Option IPAddr :=
        if goContains server "://" then
          let server := goTrimPre server "https://"
          let server := goTrimPre server "tls://"
          let server := goTrimPre server "quic://"
          let server := goTrimPre server "http://"
          let server := if goContains server "/" then goSplitFirst server "/" else server
          let server :=
            if goContains server "[" && goContains server "]" then
              goTrimPre (goSplitFirst server "]") "["
            else if goContains server ":" then goSplitFirst server ":"
            else server
          match env.lookupIP server with
          | none => none
          | some [] => none
          | some (ip0 :: rest) =>
            if rest.isEmpty then some ip0
            else if preferIPv4 then some (((ip0 :: rest).find? (fun i => i.isV4)).getD ip0)
            else some ip0
        else
          let server :=
            match goSplitN2 server ":" with
            | [p0, p1] =>
              match p1.toInt? with
              | some port => if 0 < port ∧ port < 65536 then p0 else server
              | none => server
            | _ => server
          match env.lookupIP server with
          | none => none
          | some [] => none
          | some (ip0 :: _) => some ip0
      match ipOpt with
      | none => ("0.0.0.0", "PRIVATE", true)
      | some ip =>
        if ip.isPrivate || ip.isUnspecified then (ip.str, "PRIVATE", false)
        else
          let r := checkIPGeo g ip
          (ip.str, r.1, r.2)

/-- `getServerGeocode` from `root.go`: returns the geocode of the `CheckGeo`
call when the service was created and `CheckGeo` reported no error, and falls
back to `"XX"` otherwise. -/
def getServerGeocode (env : GeoEnv) (server : String) : String :=
  match NewGeoService env with
  | some geoService =>
    let r := CheckGeo geoService env server true
    if r.2.2 = false then r.2.1 else "XX"
  | none => "XX"

/-- An ISO 3166-1 alpha-2 shaped code: exactly two uppercase ASCII
letters. -/
def isISOAlpha2 (s : String) : Bool :=
  s.length = 2 && s.data.all (fun c => c.isUpper)

/-! ## Theorems -/

/-- Unfolding lemma: with at least one success, `CalculateScore` takes the
main branch and produces the component scores. -/
theorem CalculateScore_eq_components (metrics : BenchmarkMetrics)
    (h : metrics.TotalSuccessResponses ≠ 0) :
    CalculateScore metrics =
      ⟨totalScoreOf metrics, successRateScoreOf metrics, errorRateScoreOf metrics,
        latencyScoreOf metrics, qpsScoreOf metrics⟩ := by
  simp only [CalculateScore, if_neg h]
  rfl

/-- C2: with `TotalSuccessResponses = 0`, `CalculateScore` returns the
all-zero score result, whatever the other fields of the input are. -/
theorem calculateScore_zero_success (metrics : BenchmarkMetrics)
    (h : metrics.TotalSuccessResponses = 0) :
    CalculateScore metrics = ⟨0, 0, 0, 0, 0⟩ := by
  simp only [CalculateScore, if_pos h]

/-- Witness for C2 at a concrete input with nonzero fields elsewhere. -/
theorem calculateScore_zero_success_witness :
    (BenchmarkMetrics.mk 5 0 2 3 7 ⟨1, 2, 3, 4⟩).TotalSuccessResponses = 0 ∧
      CalculateScore (BenchmarkMetrics.mk 5 0 2 3 7 ⟨1, 2, 3, 4⟩) = ⟨0, 0, 0, 0, 0⟩ :=
  ⟨rfl, calculateScore_zero_success (BenchmarkMetrics.mk 5 0 2 3 7 ⟨1, 2, 3, 4⟩) rfl⟩

/-- The latency score computed by the code equals the claimed formula once
the claimed mean is taken to be the truncating integer mean: inside the
middle branch the code's clamp of the linear term to `[0,100]` is a no-op,
and its `meanMs > 0` guard always holds there. -/
theorem latencyScoreOf_eq_claimedInt (m : BenchmarkMetrics) :
    latencyScoreOf m = claimedLatencyIntMean m := by
  unfold latencyScoreOf latencyScoreBaseOf claimedLatencyIntMean meanMsOf
    LatencyRangeMin LatencyRangeMax
  set q : ℝ := ((Int.tdiv (m.LatencyStats.MeanMs + m.LatencyStats.P50Ms) 2 : ℤ) : ℝ) with hq
  have hbase :
      (if q < (0.1 : ℝ) then (95.0 : ℝ)
       else if q > (1000.0 : ℝ) then 0
       else
         let ls := max 0 (min 100 (100 * (1 - (q - 0.1) / ((1000.0 : ℝ) - 0.1))))
         if q > 0 then max 0 (ls - (m.LatencyStats.StdMs : ℝ) / q * 5) else ls) =
      (if q < (0.1 : ℝ) then (95 : ℝ)
       else if q > (1000 : ℝ) then 0
       else max 0 (100 * (1 - (q - 0.1) / ((1000 : ℝ) - 0.1)) -
         (m.LatencyStats.StdMs : ℝ) / q * 5)) := by
    have h1000 : (1000.0 : ℝ) = 1000 := by norm_num
    rw [h1000]
    by_cases hlo : q < (0.1 : ℝ)
    · rw [if_pos hlo, if_pos hlo]; norm_num
    · rw [if_neg hlo, if_neg hlo]
      by_cases hhi : q > (1000 : ℝ)
      · rw [if_pos hhi, if_pos hhi]
      · rw [if_neg hhi, if_neg hhi]
        have hq01 : (0.1 : ℝ) ≤ q := le_of_not_lt hlo
        have hqpos : q > 0 := by linarith
        have hd0 : (0 : ℝ) ≤ (q - 0.1) / ((1000 : ℝ) - 0.1) :=
          div_nonneg (by linarith) (by norm_num)
        have hd1 : (q - 0.1) / ((1000 : ℝ) - 0.1) ≤ 1 := by
          rw [div_le_one (by norm_num)]
          linarith [le_of_not_lt hhi]
        have hL0 : (0 : ℝ) ≤ 100 * (1 - (q - 0.1) / ((1000 : ℝ) - 0.1)) := by nlinarith
        have hL100 : 100 * (1 - (q - 0.1) / ((1000 : ℝ) - 0.1)) ≤ 100 := by nlinarith
        rw [if_pos hqpos]
        rw [min_eq_right hL100, max_eq_right hL0]
  rw [hbase]

/-- C1 (counterexample): the claim's latency value computed with the *exact*
arithmetic mean of `MeanMs` and `P50Ms` differs from the code at
`MeanMs = 1, P50Ms = 0`: the code's integer division yields `meanMs = 0`,
hence the 95-point branch, while the exact mean `0.5` lands in the linear
branch. -/
theorem calculateScore_latency_exact_mean_counterexample :
    (CalculateScore (BenchmarkMetrics.mk 1 1 0 0 0 ⟨1, 0, 0, 0⟩)).Latency ≠
      claimedLatencyExactMean (BenchmarkMetrics.mk 1 1 0 0 0 ⟨1, 0, 0, 0⟩) := by
  rw [CalculateScore_eq_components _ (by decide)]
  have hcode :
      latencyScoreOf (BenchmarkMetrics.mk 1 1 0 0 0 ⟨1, 0, 0, 0⟩) = 95 := by
    unfold latencyScoreOf latencyScoreBaseOf meanMsOf LatencyRangeMin LatencyRangeMax
    norm_num [show Int.tdiv (1 : ℤ) 2 = 0 from by decide]
  have hclaim :
      claimedLatencyExactMean (BenchmarkMetrics.mk 1 1 0 0 0 ⟨1, 0, 0, 0⟩) =
        100 * (1 - ((1 : ℝ) / 2 - 0.1) / (1000 - 0.1)) := by
    unfold claimedLatencyExactMean
    norm_num
  simp only [hcode, hclaim]
  norm_num

/-- C1 (amended): for every metrics input with `TotalSuccessResponses > 0`,
the `Latency` field of `CalculateScore` equals the claimed formula with `m`
taken to be the truncating integer division `(MeanMs + P50Ms) / 2` of the
`int64` millisecond values. -/
theorem calculateScore_latency_int_mean (metrics : BenchmarkMetrics)
    (h : 0 < metrics.TotalSuccessResponses) :
    (CalculateScore metrics).Latency = claimedLatencyIntMean metrics := by
  rw [CalculateScore_eq_components _ (ne_of_gt h)]
  exact latencyScoreOf_eq_claimedInt metrics

/-- Witness for the amended C1 at a concrete input. -/
theorem calculateScore_latency_int_mean_witness :
    (0 : ℤ) < (BenchmarkMetrics.mk 1 1 0 0 0 ⟨3, 2, 4, 0⟩).TotalSuccessResponses ∧
      (CalculateScore (BenchmarkMetrics.mk 1 1 0 0 0 ⟨3, 2, 4, 0⟩)).Latency =
        claimedLatencyIntMean (BenchmarkMetrics.mk 1 1 0 0 0 ⟨3, 2, 4, 0⟩) :=
  ⟨by decide, calculateScore_latency_int_mean (BenchmarkMetrics.mk 1 1 0 0 0 ⟨3, 2, 4, 0⟩) (by decide)⟩

/-- The success-rate score is within `[0,100]` when there is at least one
success and successes do not exceed requests. -/
theorem successRateScoreOf_bounds (m : BenchmarkMetrics)
    (h1 : 0 < m.TotalRequests) (h2 : 0 < m.TotalSuccessResponses)
    (h3 : m.TotalSuccessResponses ≤ m.TotalRequests) :
    0 ≤ successRateScoreOf m ∧ successRateScoreOf m ≤ 100 := by
  unfold successRateScoreOf
  have ht : (0 : ℝ) < (m.TotalRequests : ℝ) := by exact_mod_cast h1
  have hs : (0 : ℝ) < (m.TotalSuccessResponses : ℝ) := by exact_mod_cast h2
  have hle : (m.TotalSuccessResponses : ℝ) ≤ (m.TotalRequests : ℝ) := by exact_mod_cast h3
  have hdiv : (m.TotalSuccessResponses : ℝ) / (m.TotalRequests : ℝ) ≤ 1 :=
    (div_le_one ht).mpr hle
  have hdiv0 : 0 ≤ (m.TotalSuccessResponses : ℝ) / (m.TotalRequests : ℝ) :=
    div_nonneg hs.le ht.le
  constructor
  · nlinarith
  · nlinarith

/-- The clamped error-rate score is always within `[0,100]`. -/
theorem errorRateScoreOf_bounds (m : BenchmarkMetrics) :
    0 ≤ errorRateScoreOf m ∧ errorRateScoreOf m ≤ 100 := by
  unfold errorRateScoreOf
  exact ⟨le_max_left _ _, max_le (by norm_num) (min_le_left _ _)⟩

/-- The pre-penalty latency score is within `[0,100]` when the standard
deviation is non-negative. -/
theorem latencyScoreBaseOf_bounds (m : BenchmarkMetrics)
    (hstd : 0 ≤ m.LatencyStats.StdMs) :
    0 ≤ latencyScoreBaseOf m ∧ latencyScoreBaseOf m ≤ 100 := by
  unfold latencyScoreBaseOf
  have hstdR : (0 : ℝ) ≤ (m.LatencyStats.StdMs : ℝ) := by exact_mod_cast hstd
  split_ifs with hlo hhi hpos
  · norm_num
  · norm_num
  · have hpen : (0 : ℝ) ≤ (m.LatencyStats.StdMs : ℝ) / meanMsOf m * 5 :=
      mul_nonneg (div_nonneg hstdR (le_of_lt hpos)) (by norm_num)
    refine ⟨le_max_left _ _, max_le (by norm_num) ?_⟩
    have hls : max 0 (min 100 (100 * (1 -
        (meanMsOf m - LatencyRangeMin) / (LatencyRangeMax - LatencyRangeMin)))) ≤ 100 :=
      max_le (by norm_num) (min_le_left _ _)
    linarith
  · exact ⟨le_max_left _ _, max_le (by norm_num) (min_le_left _ _)⟩

/-- The final latency score is within `[0,100]` when the standard deviation
is non-negative. -/
theorem latencyScoreOf_bounds (m : BenchmarkMetrics)
    (hstd : 0 ≤ m.LatencyStats.StdMs) :
    0 ≤ latencyScoreOf m ∧ latencyScoreOf m ≤ 100 := by
  obtain ⟨hb0, hb100⟩ := latencyScoreBaseOf_bounds m hstd
  unfold latencyScoreOf
  split_ifs
  · constructor <;> nlinarith
  · exact ⟨hb0, hb100⟩

/-- The capped QPS score is within `[0,100]` when the QPS input is
non-negative. -/
theorem qpsScoreOf_bounds (m : BenchmarkMetrics)
    (hqps : 0 ≤ m.QueriesPerSecond) :
    0 ≤ qpsScoreOf m ∧ qpsScoreOf m ≤ 100 := by
  unfold qpsScoreOf MaxQPS
  have hlog1 : 0 ≤ Real.log (1 + m.QueriesPerSecond) := Real.log_nonneg (by linarith)
  have hlog2 : 0 < Real.log (1 + 100.0) := Real.log_pos (by norm_num)
  exact ⟨le_min (by norm_num)
      (div_nonneg (mul_nonneg (by norm_num) hlog1) hlog2.le),
    min_le_left _ _⟩

/-- C3: for every metrics input with positive requests, `0 < successes ≤
requests`, error counts within `[0, requests]`, non-negative QPS and
non-negative latency statistics, each component field of the `CalculateScore`
result lies in `[0, 100]`. -/
theorem calculateScore_components_bounded (metrics : BenchmarkMetrics)
    (htot : 0 < metrics.TotalRequests)
    (hsucc : 0 < metrics.TotalSuccessResponses)
    (hsle : metrics.TotalSuccessResponses ≤ metrics.TotalRequests)
    (herr0 : 0 ≤ metrics.TotalErrorResponses + metrics.TotalIOErrors)
    (herrle : metrics.TotalErrorResponses + metrics.TotalIOErrors ≤ metrics.TotalRequests)
    (hqps : 0 ≤ metrics.QueriesPerSecond)
    (hmean : 0 ≤ metrics.LatencyStats.MeanMs)
    (hstd : 0 ≤ metrics.LatencyStats.StdMs)
    (hp50 : 0 ≤ metrics.LatencyStats.P50Ms)
    (hp95 : 0 ≤ metrics.LatencyStats.P95Ms) :
    (0 ≤ (CalculateScore metrics).SuccessRate ∧ (CalculateScore metrics).SuccessRate ≤ 100) ∧
      (0 ≤ (CalculateScore metrics).ErrorRate ∧ (CalculateScore metrics).ErrorRate ≤ 100) ∧
      (0 ≤ (CalculateScore metrics).Latency ∧ (CalculateScore metrics).Latency ≤ 100) ∧
      (0 ≤ (CalculateScore metrics).QPS ∧ (CalculateScore metrics).QPS ≤ 100) := by
  rw [CalculateScore_eq_components _ (ne_of_gt hsucc)]
  exact ⟨successRateScoreOf_bounds metrics htot hsucc hsle,
    errorRateScoreOf_bounds metrics,
    latencyScoreOf_bounds metrics hstd,
    qpsScoreOf_bounds metrics hqps⟩

/-- Witness for C3 at a concrete input. -/
theorem calculateScore_components_bounded_witness :
    ((0 : ℤ) < (BenchmarkMetrics.mk 2 1 1 0 0 ⟨5, 1, 3, 9⟩).TotalRequests ∧
        (0 : ℝ) ≤ (BenchmarkMetrics.mk 2 1 1 0 0 ⟨5, 1, 3, 9⟩).QueriesPerSecond) ∧
      ((0 ≤ (CalculateScore (BenchmarkMetrics.mk 2 1 1 0 0 ⟨5, 1, 3, 9⟩)).SuccessRate ∧
          (CalculateScore (BenchmarkMetrics.mk 2 1 1 0 0 ⟨5, 1, 3, 9⟩)).SuccessRate ≤ 100) ∧
        (0 ≤ (CalculateScore (BenchmarkMetrics.mk 2 1 1 0 0 ⟨5, 1, 3, 9⟩)).ErrorRate ∧
          (CalculateScore (BenchmarkMetrics.mk 2 1 1 0 0 ⟨5, 1, 3, 9⟩)).ErrorRate ≤ 100) ∧
        (0 ≤ (CalculateScore (BenchmarkMetrics.mk 2 1 1 0 0 ⟨5, 1, 3, 9⟩)).Latency ∧
          (CalculateScore (BenchmarkMetrics.mk 2 1 1 0 0 ⟨5, 1, 3, 9⟩)).Latency ≤ 100) ∧
        (0 ≤ (CalculateScore (BenchmarkMetrics.mk 2 1 1 0 0 ⟨5, 1, 3, 9⟩)).QPS ∧
          (CalculateScore (BenchmarkMetrics.mk 2 1 1 0 0 ⟨5, 1, 3, 9⟩)).QPS ≤ 100)) :=
  ⟨⟨by decide, by norm_num⟩,
    calculateScore_components_bounded (BenchmarkMetrics.mk 2 1 1 0 0 ⟨5, 1, 3, 9⟩)
      (by decide) (by decide) (by decide) (by decide) (by decide)
      (by norm_num) (by decide) (by decide) (by decide) (by decide)⟩

/-- C4: with at least one success, the `QPS` field equals
`min 100 (100·ln(1+qps)/ln(1+100))` and the `Total` field is the weighted
mean `(35·SuccessRate + 10·ErrorRate + 50·Latency + 5·QPS)/100` of the other
four fields of the same result. -/
theorem calculateScore_qps_and_total (metrics : BenchmarkMetrics)
    (h : 0 < metrics.TotalSuccessResponses) :
    (CalculateScore metrics).QPS =
      min 100 (100 * Real.log (1 + metrics.QueriesPerSecond) / Real.log (1 + 100)) ∧
      (CalculateScore metrics).Total =
        (35 * (CalculateScore metrics).SuccessRate +
          10 * (CalculateScore metrics).ErrorRate +
          50 * (CalculateScore metrics).Latency +
          5 * (CalculateScore metrics).QPS) / 100 := by
  rw [CalculateScore_eq_components _ (ne_of_gt h)]
  constructor
  · unfold qpsScoreOf MaxQPS
    norm_num
  · unfold totalScoreOf SuccessRateScoreWeight ErrorRateScoreWeight
      LatencyScoreWeight QPSScoreWeight
    ring

/-- Witness for C4 at a concrete input. -/
theorem calculateScore_qps_and_total_witness :
    (0 : ℤ) < (BenchmarkMetrics.mk 4 3 1 0 2 ⟨7, 1, 5, 2⟩).TotalSuccessResponses ∧
      ((CalculateScore (BenchmarkMetrics.mk 4 3 1 0 2 ⟨7, 1, 5, 2⟩)).QPS =
        min 100 (100 * Real.log (1 + (BenchmarkMetrics.mk 4 3 1 0 2 ⟨7, 1, 5, 2⟩).QueriesPerSecond) /
          Real.log (1 + 100)) ∧
        (CalculateScore (BenchmarkMetrics.mk 4 3 1 0 2 ⟨7, 1, 5, 2⟩)).Total =
          (35 * (CalculateScore (BenchmarkMetrics.mk 4 3 1 0 2 ⟨7, 1, 5, 2⟩)).SuccessRate +
            10 * (CalculateScore (BenchmarkMetrics.mk 4 3 1 0 2 ⟨7, 1, 5, 2⟩)).ErrorRate +
            50 * (CalculateScore (BenchmarkMetrics.mk 4 3 1 0 2 ⟨7, 1, 5, 2⟩)).Latency +
            5 * (CalculateScore (BenchmarkMetrics.mk 4 3 1 0 2 ⟨7, 1, 5, 2⟩)).QPS) / 100) :=
  ⟨by decide, calculateScore_qps_and_total (BenchmarkMetrics.mk 4 3 1 0 2 ⟨7, 1, 5, 2⟩) (by decide)⟩

/-- C5 (counterexample): an input satisfying all of the claim's premises
(`success = total > 0`, mean latency below 0.1 ms, `qps ≥ 100`) whose total
score is below 95: one error response drives the error score to 0 and a P95
latency above 1000 ms cuts the latency score by 0.7, giving 73.25. -/
theorem calculateScore_total_95_counterexample :
    (BenchmarkMetrics.mk 1 1 1 0 100 ⟨0, 0, 0, 2000⟩).TotalSuccessResponses =
        (BenchmarkMetrics.mk 1 1 1 0 100 ⟨0, 0, 0, 2000⟩).TotalRequests ∧
      (0 : ℤ) < (BenchmarkMetrics.mk 1 1 1 0 100 ⟨0, 0, 0, 2000⟩).TotalRequests ∧
      meanMsOf (BenchmarkMetrics.mk 1 1 1 0 100 ⟨0, 0, 0, 2000⟩) < 0.1 ∧
      (100 : ℝ) ≤ (BenchmarkMetrics.mk 1 1 1 0 100 ⟨0, 0, 0, 2000⟩).QueriesPerSecond ∧
      (CalculateScore (BenchmarkMetrics.mk 1 1 1 0 100 ⟨0, 0, 0, 2000⟩)).Total < 95 := by
  refine ⟨rfl, by decide, ?_, by norm_num, ?_⟩
  · unfold meanMsOf
    norm_num [show Int.tdiv (0 : ℤ) 2 = 0 from by decide]
  · rw [CalculateScore_eq_components _ (by decide)]
    have hSR : successRateScoreOf (BenchmarkMetrics.mk 1 1 1 0 100 ⟨0, 0, 0, 2000⟩) = 100 := by
      unfold successRateScoreOf
      norm_num
    have hER : errorRateScoreOf (BenchmarkMetrics.mk 1 1 1 0 100 ⟨0, 0, 0, 2000⟩) = 0 := by
      unfold errorRateScoreOf
      norm_num
    have hL : latencyScoreOf (BenchmarkMetrics.mk 1 1 1 0 100 ⟨0, 0, 0, 2000⟩) = 66.5 := by
      unfold latencyScoreOf latencyScoreBaseOf meanMsOf LatencyRangeMin LatencyRangeMax
      norm_num [show Int.tdiv (0 : ℤ) 2 = 0 from by decide]
    have hQ : qpsScoreOf (BenchmarkMetrics.mk 1 1 1 0 100 ⟨0, 0, 0, 2000⟩) = 100 := by
      unfold qpsScoreOf MaxQPS
      have hproj : (BenchmarkMetrics.mk 1 1 1 0 100 ⟨0, 0, 0, 2000⟩).QueriesPerSecond = 100 := rfl
      rw [hproj]
      have hlog : Real.log ((1 : ℝ) + 100.0) ≠ 0 := ne_of_gt (Real.log_pos (by norm_num))
      have hsame : ((1 : ℝ) + 100) = ((1 : ℝ) + 100.0) := by norm_num
      rw [hsame, mul_div_assoc, div_self hlog, mul_one, min_self]
    unfold totalScoreOf SuccessRateScoreWeight ErrorRateScoreWeight
      LatencyScoreWeight QPSScoreWeight
    rw [hSR, hER, hL, hQ]
    norm_num

/-- C5 (amended): with `success = total > 0`, *no error or IO-error
responses*, code mean latency (the integer mean of MeanMs and P50Ms) below
0.1 ms, *P95 latency at most 1000 ms* and `qps ≥ 100`, the total score is at
least 95 (it is exactly 97.5). -/
theorem calculateScore_total_ge_95 (metrics : BenchmarkMetrics)
    (hsucc_eq : metrics.TotalSuccessResponses = metrics.TotalRequests)
    (htot : 0 < metrics.TotalRequests)
    (herr : metrics.TotalErrorResponses + metrics.TotalIOErrors = 0)
    (hmean : meanMsOf metrics < 0.1)
    (hp95 : metrics.LatencyStats.P95Ms ≤ 1000)
    (hqps : 100 ≤ metrics.QueriesPerSecond) :
    95 ≤ (CalculateScore metrics).Total := by
  have hsucc : 0 < metrics.TotalSuccessResponses := hsucc_eq ▸ htot
  rw [CalculateScore_eq_components _ (ne_of_gt hsucc)]
  have htR : (0 : ℝ) < (metrics.TotalRequests : ℝ) := by exact_mod_cast htot
  have hSR : successRateScoreOf metrics = 100 := by
    unfold successRateScoreOf
    rw [hsucc_eq, div_self (ne_of_gt htR), one_mul]
  have hER : errorRateScoreOf metrics = 100 := by
    unfold errorRateScoreOf
    rw [herr]
    norm_num
  have hLbase : latencyScoreBaseOf metrics = 95 := by
    unfold latencyScoreBaseOf LatencyRangeMin
    rw [if_pos hmean]
    norm_num
  have hL : latencyScoreOf metrics = 95 := by
    unfold latencyScoreOf
    rw [if_neg (not_lt.mpr hp95)]
    exact hLbase
  have hQ : qpsScoreOf metrics = 100 := by
    unfold qpsScoreOf MaxQPS
    have h1 : (0 : ℝ) < Real.log (1 + 100.0) := Real.log_pos (by norm_num)
    have h2 : Real.log (1 + 100.0) ≤ Real.log (1 + metrics.QueriesPerSecond) :=
      Real.log_le_log (by norm_num) (by linarith)
    have h3 : (100 : ℝ) ≤ 100 * Real.log (1 + metrics.QueriesPerSecond) / Real.log (1 + 100.0) := by
      rw [le_div_iff₀ h1]
      nlinarith
    exact min_eq_left h3
  unfold totalScoreOf SuccessRateScoreWeight ErrorRateScoreWeight
    LatencyScoreWeight QPSScoreWeight
  rw [hSR, hER, hL, hQ]
  norm_num

/-- Witness for the amended C5 at a concrete input. -/
theorem calculateScore_total_ge_95_witness :
    ((BenchmarkMetrics.mk 1 1 0 0 100 ⟨0, 0, 0, 0⟩).TotalSuccessResponses =
        (BenchmarkMetrics.mk 1 1 0 0 100 ⟨0, 0, 0, 0⟩).TotalRequests ∧
      meanMsOf (BenchmarkMetrics.mk 1 1 0 0 100 ⟨0, 0, 0, 0⟩) < 0.1) ∧
      95 ≤ (CalculateScore (BenchmarkMetrics.mk 1 1 0 0 100 ⟨0, 0, 0, 0⟩)).Total :=
  ⟨⟨rfl, by unfold meanMsOf; norm_num [show Int.tdiv (0 : ℤ) 2 = 0 from by decide]⟩,
    calculateScore_total_ge_95 (BenchmarkMetrics.mk 1 1 0 0 100 ⟨0, 0, 0, 0⟩)
      rfl (by decide) (by decide)
      (by unfold meanMsOf; norm_num [show Int.tdiv (0 : ℤ) 2 = 0 from by decide])
      (by decide) (by norm_num)⟩

/-- The swapping inner loop permutes the entries it touches. -/
theorem rankInnerLoop_perm (x : ServerRank) (ys : List ServerRank) :
    List.Perm ((rankInnerLoop x ys).1 :: (rankInnerLoop x ys).2) (x :: ys) := by
  induction ys generalizing x with
  | nil => simp [rankInnerLoop]
  | cons y ys ih =>
    by_cases h : x.Score.Total < y.Score.Total
    · simp only [rankInnerLoop, if_pos h]
      exact (List.Perm.swap x _ _).trans ((ih y).cons x)
    · simp only [rankInnerLoop, if_neg h]
      exact ((List.Perm.swap y _ _).trans ((ih x).cons y)).trans
        (List.Perm.swap y x ys).symm

/-- After the inner loop, the element left at position `i` bounds every
element it was compared against. -/
theorem rankInnerLoop_head_max (x : ServerRank) (ys : List ServerRank) :
    ∀ z ∈ (rankInnerLoop x ys).1 :: (rankInnerLoop x ys).2,
      z.Score.Total ≤ (rankInnerLoop x ys).1.Score.Total := by
  induction ys generalizing x with
  | nil =>
    intro z hz
    simp only [rankInnerLoop] at hz ⊢
    rw [List.mem_singleton.mp hz]
  | cons y ys ih =>
    intro z hz
    by_cases h : x.Score.Total < y.Score.Total
    · simp only [rankInnerLoop, if_pos h] at hz ⊢
      rcases List.mem_cons.mp hz with h1 | h2
      · rw [h1]
      · rcases List.mem_cons.mp h2 with h3 | h4
        · rw [h3]
          have hy : y ∈ (rankInnerLoop y ys).1 :: (rankInnerLoop y ys).2 :=
            (rankInnerLoop_perm y ys).mem_iff.mpr (List.mem_cons_self y ys)
          exact le_trans (le_of_lt h) (ih y y hy)
        · exact ih y z (List.mem_cons_of_mem _ h4)
    · simp only [rankInnerLoop, if_neg h] at hz ⊢
      rcases List.mem_cons.mp hz with h1 | h2
      · rw [h1]
      · rcases List.mem_cons.mp h2 with h3 | h4
        · rw [h3]
          have hx : x ∈ (rankInnerLoop x ys).1 :: (rankInnerLoop x ys).2 :=
            (rankInnerLoop_perm x ys).mem_iff.mpr (List.mem_cons_self x ys)
          exact le_trans (not_lt.mp h) (ih x x hx)
        · exact ih x z (List.mem_cons_of_mem _ h4)

/-- The outer loop permutes the rankings slice. -/
theorem rankOuterLoop_perm (fuel : ℕ) :
    ∀ l : List ServerRank, List.Perm (rankOuterLoop fuel l) l := by
  induction fuel with
  | zero => intro l; simp [rankOuterLoop]
  | succ n ih =>
    intro l
    cases l with
    | nil => simp [rankOuterLoop]
    | cons x xs =>
      simp only [rankOuterLoop]
      exact (((ih _).cons _)).trans (rankInnerLoop_perm x xs)

/-- With enough fuel (one unit per outer iteration, as in the Go loop), the
outer loop sorts the slice by total score in non-increasing order. -/
theorem rankOuterLoop_sorted (fuel : ℕ) :
    ∀ l : List ServerRank, l.length ≤ fuel →
      List.Sorted (fun a b => b.Score.Total ≤ a.Score.Total) (rankOuterLoop fuel l) := by
  induction fuel with
  | zero =>
    intro l hl
    rw [List.eq_nil_of_length_eq_zero (Nat.le_zero.mp hl)]
    simp [rankOuterLoop]
  | succ n ih =>
    intro l hl
    cases l with
    | nil => simp [rankOuterLoop]
    | cons x xs =>
      simp only [rankOuterLoop]
      rw [List.sorted_cons]
      constructor
      · intro b hb
        have hb2 : b ∈ (rankInnerLoop x xs).2 :=
          ((rankOuterLoop_perm n _).mem_iff).mp hb
        exact rankInnerLoop_head_max x xs b (List.mem_cons_of_mem _ hb2)
      · apply ih
        have hlen : (rankInnerLoop x xs).2.length = xs.length := by
          have hp := (rankInnerLoop_perm x xs).length_eq
          simpa using hp
        rw [hlen]
        simpa using hl

/-- C10: `RankServers` returns a permutation of the map's entries, sorted in
non-increasing order of the `Total` score field. -/
theorem rankServers_perm_and_sorted (servers : List (String × ScoreResult)) :
    List.Perm ((RankServers servers).map (fun r => (r.Server, r.Score))) servers ∧
      List.Sorted (fun a b => b.Score.Total ≤ a.Score.Total) (RankServers servers) := by
  unfold RankServers
  constructor
  · have hperm :=
      (rankOuterLoop_perm (servers.map fun p => ServerRank.mk p.1 p.2).length
        (servers.map fun p => ServerRank.mk p.1 p.2)).map
        (fun r : ServerRank => (r.Server, r.Score))
    have hid : (servers.map fun p => ServerRank.mk p.1 p.2).map
        (fun r : ServerRank => (r.Server, r.Score)) = servers := by
      rw [List.map_map]
      have hcomp : ((fun r : ServerRank => (r.Server, r.Score)) ∘
          fun p : String × ScoreResult => ServerRank.mk p.1 p.2) = id := by
        funext p
        simp
      rw [hcomp, List.map_id]
    rw [hid] at hperm
    exact hperm
  · exact rankOuterLoop_sorted _ _ le_rfl

/-- The byte-wise string order is total. -/
theorem goCharsLe_total : ∀ as bs : List Char,
    goCharsLe as bs = true ∨ goCharsLe bs as = true := by
  intro as
  induction as with
  | nil =>
    intro bs
    left
    simp [goCharsLe]
  | cons a as ih =>
    intro bs
    cases bs with
    | nil =>
      right
      simp [goCharsLe]
    | cons b bs =>
      by_cases hab : a < b
      · left
        simp [goCharsLe, hab]
      · by_cases hba : b < a
        · right
          simp [goCharsLe, hba]
        · rcases ih bs with h | h
          · left
            simp [goCharsLe, hab, hba, h]
          · right
            simp [goCharsLe, hab, hba, h]

/-- The byte-wise string order is transitive. -/
theorem goCharsLe_trans : ∀ as bs cs : List Char,
    goCharsLe as bs = true → goCharsLe bs cs = true → goCharsLe as cs = true := by
  intro as
  induction as with
  | nil =>
    intro bs cs _ _
    simp [goCharsLe]
  | cons a as ih =>
    intro bs cs h1 h2
    cases bs with
    | nil => simp [goCharsLe] at h1
    | cons b bs =>
      cases cs with
      | nil => simp [goCharsLe] at h2
      | cons c cs =>
        simp only [goCharsLe] at h1 h2 ⊢
        by_cases hab : a < b
        · by_cases hbc : b < c
          · simp [lt_trans hab hbc]
          · rw [if_neg hbc] at h2
            by_cases hcb : c < b
            · rw [if_pos hcb] at h2
              exact absurd h2 (by simp)
            · have hbeq : b = c := le_antisymm (not_lt.mp hcb) (not_lt.mp hbc)
              subst hbeq
              simp [hab]
        · rw [if_neg hab] at h1
          by_cases hba : b < a
          · rw [if_pos hba] at h1
            exact absurd h1 (by simp)
          · have haeq : a = b := le_antisymm (not_lt.mp hba) (not_lt.mp hab)
            subst haeq
            by_cases hac : a < c
            · simp [hac]
            · rw [if_neg hac] at h2 ⊢
              by_cases hca : c < a
              · rw [if_pos hca] at h2
                exact absurd h2 (by simp)
              · rw [if_neg hca] at h2 ⊢
                rw [if_neg hab] at h1
                exact ih bs cs h1 h2

/-- C6 (counterexample): for the input list `"b,a"` of distinct non-empty
servers, the emitted batch object's keys are *not* in input order — Go's
`encoding/json` writes map keys sorted, so the keys come out as
`["a", "b"]`. -/
theorem runBatchBenchmark_input_order_counterexample :
    (runBatchBenchmark ℕ "b,a" (fun _ => 0)).map Prod.fst ≠ ["b", "a"] := by
  decide

/-- C6 (amended): for every comma-separated list of distinct non-empty
(trimmed) server strings, the batch JSON object has exactly those servers as
keys, in ascending lexicographic (byte-wise) order — the order
`encoding/json` gives Go map keys — each mapped to that server's
single-server result. -/
theorem runBatchBenchmark_sorted_keys (α : Type) (serverList : String)
    (runResult : String → α)
    (hnodup : (batchServerNames serverList).Nodup) :
    List.Perm ((runBatchBenchmark α serverList runResult).map Prod.fst)
        (batchServerNames serverList) ∧
      List.Sorted (fun a b => goStringLe a b = true)
        ((runBatchBenchmark α serverList runResult).map Prod.fst) ∧
      ∀ p ∈ runBatchBenchmark α serverList runResult, p.2 = runResult p.1 := by
  haveI htot : IsTotal String (fun a b => goStringLe a b = true) :=
    ⟨fun a b => goCharsLe_total a.data b.data⟩
  haveI htrans : IsTrans String (fun a b => goStringLe a b = true) :=
    ⟨fun a b c => goCharsLe_trans a.data b.data c.data⟩
  unfold runBatchBenchmark
  rw [List.dedup_eq_self.mpr hnodup]
  have hmapfst : ∀ l : List String,
      ((l.map fun s => (s, runResult s)).map Prod.fst) = l := by
    intro l
    rw [List.map_map]
    have hcomp : (Prod.fst ∘ fun s : String => (s, runResult s)) = id := by
      funext s
      rfl
    rw [hcomp, List.map_id]
  refine ⟨?_, ?_, ?_⟩
  · rw [hmapfst]
    exact List.perm_insertionSort _ _
  · rw [hmapfst]
    exact List.sorted_insertionSort _ _
  · intro p hp
    obtain ⟨s, _, hps⟩ := List.mem_map.mp hp
    rw [← hps]

/-- Witness for the amended C6 on the server list `"b,a"`. -/
theorem runBatchBenchmark_sorted_keys_witness :
    (batchServerNames "b,a").Nodup ∧
      (List.Perm ((runBatchBenchmark ℕ "b,a" (fun _ => 7)).map Prod.fst)
          (batchServerNames "b,a") ∧
        List.Sorted (fun a b => goStringLe a b = true)
          ((runBatchBenchmark ℕ "b,a" (fun _ => 7)).map Prod.fst) ∧
        ∀ p ∈ runBatchBenchmark ℕ "b,a" (fun _ => 7), p.2 = (fun _ : String => 7) p.1) :=
  ⟨by decide, runBatchBenchmark_sorted_keys ℕ "b,a" (fun _ => 7) (by decide)⟩

/-- C7 (counterexample): the per-server configuration copy does *not* differ
from the base only in `Server`: starting from the default configuration
(where `JSON = false` and `Silent = false`), the copy also has `JSON = true`
and `Silent = true`. -/
theorem serverBenchmark_only_server_counterexample :
    serverBenchmark sampleBenchmark "1.1.1.1" ≠
      { sampleBenchmark with Server := "1.1.1.1" } := by
  decide

/-- C7 (amended): the per-server configuration copy differs from the base
configuration exactly in `Server` (set to the server), `JSON` (set to true)
and `Silent` (set to true); every other field is unchanged. -/
theorem serverBenchmark_fields (b : Benchmark) (s : String) :
    (serverBenchmark b s).Server = s ∧
      (serverBenchmark b s).JSON = true ∧
      (serverBenchmark b s).Silent = true ∧
      (serverBenchmark b s).Types = b.Types ∧
      (serverBenchmark b s).Count = b.Count ∧
      (serverBenchmark b s).Concurrency = b.Concurrency ∧
      (serverBenchmark b s).Rate = b.Rate ∧
      (serverBenchmark b s).RateLimitWorker = b.RateLimitWorker ∧
      (serverBenchmark b s).QperConn = b.QperConn ∧
      (serverBenchmark b s).Recurse = b.Recurse ∧
      (serverBenchmark b s).Probability = b.Probability ∧
      (serverBenchmark b s).EdnsOpt = b.EdnsOpt ∧
      (serverBenchmark b s).DNSSEC = b.DNSSEC ∧
      (serverBenchmark b s).Edns0 = b.Edns0 ∧
      (serverBenchmark b s).TCP = b.TCP ∧
      (serverBenchmark b s).DOT = b.DOT ∧
      (serverBenchmark b s).WriteTimeout = b.WriteTimeout ∧
      (serverBenchmark b s).ReadTimeout = b.ReadTimeout ∧
      (serverBenchmark b s).ConnectTimeout = b.ConnectTimeout ∧
      (serverBenchmark b s).RequestTimeout = b.RequestTimeout ∧
      (serverBenchmark b s).Rcodes = b.Rcodes ∧
      (serverBenchmark b s).HistMin = b.HistMin ∧
      (serverBenchmark b s).HistMax = b.HistMax ∧
      (serverBenchmark b s).HistPre = b.HistPre ∧
      (serverBenchmark b s).HistDisplay = b.HistDisplay ∧
      (serverBenchmark b s).Csv = b.Csv ∧
      (serverBenchmark b s).BatchJSON = b.BatchJSON ∧
      (serverBenchmark b s).HTML = b.HTML ∧
      (serverBenchmark b s).Color = b.Color ∧
      (serverBenchmark b s).PlotDir = b.PlotDir ∧
      (serverBenchmark b s).PlotFormat = b.PlotFormat ∧
      (serverBenchmark b s).DohMethod = b.DohMethod ∧
      (serverBenchmark b s).DohProtocol = b.DohProtocol ∧
      (serverBenchmark b s).Insecure = b.Insecure ∧
      (serverBenchmark b s).Duration = b.Duration ∧
      (serverBenchmark b s).ProgressBar = b.ProgressBar ∧
      (serverBenchmark b s).RequestLogEnabled = b.RequestLogEnabled ∧
      (serverBenchmark b s).RequestLogPath = b.RequestLogPath ∧
      (serverBenchmark b s).SeparateWorkerConnections = b.SeparateWorkerConnections ∧
      (serverBenchmark b s).RequestDelay = b.RequestDelay ∧
      (serverBenchmark b s).PrometheusMetricsAddr = b.PrometheusMetricsAddr ∧
      (serverBenchmark b s).Queries = b.Queries ∧
      (serverBenchmark b s).Writer = b.Writer :=
  ⟨rfl, rfl, rfl, rfl, rfl, rfl, rfl, rfl, rfl, rfl, rfl, rfl, rfl, rfl, rfl,
    rfl, rfl, rfl, rfl, rfl, rfl, rfl, rfl, rfl, rfl, rfl, rfl, rfl, rfl, rfl,
    rfl, rfl, rfl, rfl, rfl, rfl, rfl, rfl, rfl, rfl, rfl, rfl, rfl⟩

/-- The fail-condition walk only ever produces exit status 0 or 1. -/
theorem failConditionsExitCode_zero_or_one (conds : List String) (stats : Counters) :
    failConditionsExitCode conds stats = 0 ∨ failConditionsExitCode conds stats = 1 := by
  induction conds with
  | nil =>
    left
    rfl
  | cons f rest ih =>
    simp only [failConditionsExitCode]
    split_ifs <;> first | (right; rfl) | exact ih

/-- The fail-condition walk exits 1 exactly when some configured condition's
counter is positive. -/
theorem failConditionsExitCode_eq_one_iff (conds : List String) (stats : Counters) :
    failConditionsExitCode conds stats = 1 ↔
      (("ioerror" ∈ conds ∧ 0 < stats.IOError) ∨
        ("negative" ∈ conds ∧ 0 < stats.Negative) ∨
        ("error" ∈ conds ∧ 0 < stats.Error) ∨
        ("idmismatch" ∈ conds ∧ 0 < stats.IDmismatch)) := by
  induction conds with
  | nil => simp [failConditionsExitCode]
  | cons f rest ih =>
    by_cases h1 : f = "ioerror"
    · subst h1
      by_cases hc : stats.IOError > 0
      · simp [failConditionsExitCode, hc]
      · simp only [failConditionsExitCode, if_pos rfl, if_neg hc, ih, List.mem_cons]
        simp [hc]
        tauto
    · by_cases h2 : f = "negative"
      · subst h2
        by_cases hc : stats.Negative > 0
        · simp [failConditionsExitCode, hc]
        · simp only [failConditionsExitCode, if_neg (by simp : ("negative" : String) ≠ "ioerror"),
            if_pos rfl, if_neg hc, ih, List.mem_cons]
          simp [hc]
          tauto
      · by_cases h3 : f = "error"
        · subst h3
          by_cases hc : stats.Error > 0
          · simp [failConditionsExitCode, hc]
          · simp only [failConditionsExitCode, if_neg (by simp : ("error" : String) ≠ "ioerror"),
              if_neg (by simp : ("error" : String) ≠ "negative"), if_pos rfl, if_neg hc, ih,
              List.mem_cons]
            simp [hc]
            tauto
        · by_cases h4 : f = "idmismatch"
          · subst h4
            by_cases hc : stats.IDmismatch > 0
            · simp [failConditionsExitCode, hc]
            · simp only [failConditionsExitCode,
                if_neg (by simp : ("idmismatch" : String) ≠ "ioerror"),
                if_neg (by simp : ("idmismatch" : String) ≠ "negative"),
                if_neg (by simp : ("idmismatch" : String) ≠ "error"), if_pos rfl, if_neg hc, ih,
                List.mem_cons]
              simp [hc]
              tauto
          · have h1' : ¬("ioerror" = f) := fun h => h1 h.symm
            have h2' : ¬("negative" = f) := fun h => h2 h.symm
            have h3' : ¬("error" = f) := fun h => h3 h.symm
            have h4' : ¬("idmismatch" = f) := fun h => h4 h.symm
            simp only [failConditionsExitCode, if_neg h1, if_neg h2, if_neg h3, if_neg h4, ih,
              List.mem_cons]
            simp [h1', h2', h3', h4']

/-- C8: after a completed run whose report printed successfully, the process
exits with status 1 exactly when some condition configured by `--fail` has a
positive aggregate counter (`ioerror → IOError`, `negative → Negative`,
`error → Error`, `idmismatch → IDmismatch`), and with status 0 exactly when
no configured condition's counter is positive. -/
theorem failConditions_exit_status (conds : List String) (stats : Counters) :
    (failConditionsExitCode conds stats = 1 ↔
        (("ioerror" ∈ conds ∧ 0 < stats.IOError) ∨
          ("negative" ∈ conds ∧ 0 < stats.Negative) ∨
          ("error" ∈ conds ∧ 0 < stats.Error) ∨
          ("idmismatch" ∈ conds ∧ 0 < stats.IDmismatch))) ∧
      (failConditionsExitCode conds stats = 0 ↔
        ¬(("ioerror" ∈ conds ∧ 0 < stats.IOError) ∨
          ("negative" ∈ conds ∧ 0 < stats.Negative) ∨
          ("error" ∈ conds ∧ 0 < stats.Error) ∨
          ("idmismatch" ∈ conds ∧ 0 < stats.IDmismatch))) := by
  have hiff := failConditionsExitCode_eq_one_iff conds stats
  refine ⟨hiff, ?_⟩
  rcases failConditionsExitCode_zero_or_one conds stats with h | h
  · rw [h] at hiff ⊢
    simp only [Nat.zero_ne_one, false_iff] at hiff
    exact ⟨fun _ => hiff, fun _ => rfl⟩
  · rw [h] at hiff ⊢
    have hD := hiff.mp rfl
    exact ⟨fun h10 => absurd h10 (by norm_num), fun hnD => absurd hD hnD⟩

/-- Every result of `CheckGeo` on a loaded database either reports an error,
or carries the geocode `"PRIVATE"`, `"CDN"`, or a non-empty code returned by
the database. -/
theorem checkGeo_result (d : IPAddr → Option String) (env : GeoEnv)
    (server : String) (preferIPv4 : Bool) :
    (CheckGeo ⟨some d⟩ env server preferIPv4).2.2 = true ∨
      (CheckGeo ⟨some d⟩ env server preferIPv4).2.1 = "PRIVATE" ∨
      (CheckGeo ⟨some d⟩ env server preferIPv4).2.1 = "CDN" ∨
      ∃ ip iso, d ip = some iso ∧ iso ≠ "" ∧
        (CheckGeo ⟨some d⟩ env server preferIPv4).2.1 = iso := by
  unfold CheckGeo checkIPGeo
  dsimp only
  repeat' split
  all_goals dsimp only
  all_goals try (left; rfl)
  all_goals try (right; left; rfl)
  all_goals try (right; right; left; rfl)
  all_goals rename_i ip _ _ _ iso heq hiso
  all_goals exact Or.inr (Or.inr (Or.inr ⟨ip, iso, heq, hiso, rfl⟩))

/-- C9: whatever the outcome of database loading, host resolution and the
GeoIP country lookup, `getServerGeocode` returns `"XX"`, `"PRIVATE"`,
`"CDN"` or a two-letter country code — provided the database only yields
ISO 3166-1 alpha-2 codes (or empty strings) — and in particular it never
returns `"UNKNOWN"`. -/
theorem getServerGeocode_valid (env : GeoEnv) (server : String)
    (hdb : ∀ d, env.dbLoad = some d → ∀ ip iso, d ip = some iso →
      iso = "" ∨ isISOAlpha2 iso = true) :
    (getServerGeocode env server = "XX" ∨ getServerGeocode env server = "PRIVATE" ∨
      getServerGeocode env server = "CDN" ∨ isISOAlpha2 (getServerGeocode env server) = true) ∧
      getServerGeocode env server ≠ "UNKNOWN" := by
  have hmain : getServerGeocode env server = "XX" ∨
      getServerGeocode env server = "PRIVATE" ∨
      getServerGeocode env server = "CDN" ∨
      isISOAlpha2 (getServerGeocode env server) = true := by
    cases hdl : env.dbLoad with
    | none =>
      left
      unfold getServerGeocode NewGeoService
      rw [hdl]
    | some d =>
      unfold getServerGeocode NewGeoService
      rw [hdl]
      dsimp only
      rcases checkGeo_result d env server true with herr | hP | hC | ⟨ip, iso, hiso, hne, heq⟩
      · rw [if_neg (by simp [herr])]
        left
        rfl
      · by_cases hf : (CheckGeo ⟨some d⟩ env server true).2.2 = false
        · rw [if_pos hf, hP]
          right
          left
          rfl
        · rw [if_neg hf]
          left
          rfl
      · by_cases hf : (CheckGeo ⟨some d⟩ env server true).2.2 = false
        · rw [if_pos hf, hC]
          right
          right
          left
          rfl
        · rw [if_neg hf]
          left
          rfl
      · by_cases hf : (CheckGeo ⟨some d⟩ env server true).2.2 = false
        · rw [if_pos hf, heq]
          rcases hdb d hdl ip iso hiso with h0 | h0
          · exact absurd h0 hne
          · right
            right
            right
            exact h0
        · rw [if_neg hf]
          left
          rfl
  refine ⟨hmain, ?_⟩
  rcases hmain with h | h | h | h
  · rw [h]
    decide
  · rw [h]
    decide
  · rw [h]
    decide
  · intro hU
    rw [hU] at h
    exact absurd h (by decide)

/-- Witness for C9 in the environment where no database path opens: the
geocode falls back to `"XX"`. -/
theorem getServerGeocode_valid_witness :
    (∀ d, (GeoEnv.mk none fun _ => none).dbLoad = some d → ∀ ip iso, d ip = some iso →
        iso = "" ∨ isISOAlpha2 iso = true) ∧
      ((getServerGeocode (GeoEnv.mk none fun _ => none) "8.8.8.8" = "XX" ∨
        getServerGeocode (GeoEnv.mk none fun _ => none) "8.8.8.8" = "PRIVATE" ∨
        getServerGeocode (GeoEnv.mk none fun _ => none) "8.8.8.8" = "CDN" ∨
        isISOAlpha2 (getServerGeocode (GeoEnv.mk none fun _ => none) "8.8.8.8") = true) ∧
        getServerGeocode (GeoEnv.mk none fun _ => none) "8.8.8.8" ≠ "UNKNOWN") :=
  ⟨fun _ h => absurd h (by simp),
    getServerGeocode_valid (GeoEnv.mk none fun _ => none) "8.8.8.8"
      (fun _ h => absurd h (by simp))⟩

end Dnspyre
